import Mathlib

/-!
A shallow embedding of the entity-lifecycle core of the bitECS fork
(src/Entity.ts): global id allocation, recycling, capacity growth, and
per-world entity bookkeeping, together with theorems about addEntity,
removeEntity, getEntityComponents and entityExists.

Modelling conventions.  JavaScript numbers are IEEE doubles; every
quantity handled by this module is an integer (sizes, cursors, ids)
except the reuse-threshold fraction.  Integer quantities are modelled as
Nat.  The threshold fraction is modelled as an exact rational; at every
value arising in this development the double computations of the source
agree with exact rational arithmetic.  JS Maps are modelled as
insertion-ordered association lists (set replaces in place or appends,
delete filters, get is the first match), the global array of removed ids
as a list (push appends at the tail, shift removes the head), and a
bitmask row (an array indexed by entity id) as a total function from ids
to mask words.  Worlds are identified by a natural number; the process
state carries a total map from world ids to world states.
-/

namespace BitEcs

/-- Math.round on an exact rational: the floor of q + 1/2. -/
def jsRound (q : ℚ) : ℤ := Int.floor (q + 1/2)

/-- The growth trigger bound of the source, globalSize - globalSize / 5.
In the source the division is on doubles; for an integer cursor the
comparison cursor >= globalSize - globalSize/5 over the reals is
equivalent to this Nat floor form. -/
def resizeThreshold (globalSize : ℕ) : ℕ := globalSize - globalSize / 5

/-- Math.ceil(size / 2 / 4) * 4, the amount added to the capacity when the
data stores are 80 percent full.  Over the reals size/2/4 = size/8, whose
ceiling on naturals is (size + 7) / 8. -/
def growAmount (size : ℕ) : ℕ := (size + 7) / 8 * 4

/-- The module constant defaultRemovedReuseThreshold = 0.01. -/
def defaultRemovedReuseThreshold : ℚ := 1/100

/-- JS Map.get: value of the first (unique) entry with the given key. -/
def jsMapGet {α : Type} (m : List (ℕ × α)) (k : ℕ) : Option α :=
  (m.find? (fun p => p.1 == k)).map (fun p => p.2)

/-- JS Map.set: replace the value in place when the key is present,
otherwise append a new entry at the end (insertion order). -/
def jsMapSet {α : Type} (m : List (ℕ × α)) (k : ℕ) (v : α) : List (ℕ × α) :=
  if m.any (fun p => p.1 == k) then
    m.map (fun p => if p.1 == k then (k, v) else p)
  else
    m ++ [(k, v)]

/-- JS Map.delete: drop the entry with the given key. -/
def jsMapDelete {α : Type} (m : List (ℕ × α)) (k : ℕ) : List (ℕ × α) :=
  m.filter (fun p => p.1 != k)

/-- Modelled from the spec: the query collaborator (src/Query.js is not
part of the given sources).  A registered query carries its result set;
its match predicate, opaque at this interface, is represented by the set
of entity ids it accepts. -/
structure Query where
  matchTable : List ℕ
  result : List ℕ
  deriving DecidableEq

/-- Modelled from the spec: matches(world, query, id) of the query
collaborator, an opaque boolean predicate on the entity. -/
def queryCheckEntity (q : Query) (eid : ℕ) : Bool := q.matchTable.contains eid

/-- Modelled from the spec: addToQuery(query, id) of the query
collaborator adds the id to the query's result set. -/
def queryAddEntity (q : Query) (eid : ℕ) : Query :=
  { q with result := if q.result.contains eid then q.result else q.result ++ [eid] }

/-- Modelled from the spec: removeFromQuery(world, query, id) of the query
collaborator removes the id from the query's result set. -/
def queryRemoveEntity (q : Query) (eid : ℕ) : Query :=
  { q with result := q.result.erase eid }

/-- One world: its sparse set of live ids (the sparse-set collaborator is
modelled from the spec as a membership structure over ids), the per-id
component-tag sets (a JS Map from id to a JS Set, the latter kept in
insertion order as a list of opaque tags), the component bitmask rows,
the registered queries and not-queries, and the local/global id maps used
by deserialization. -/
structure WorldState where
  entitySparseSet : Finset ℕ
  entityComponents : List (ℕ × List ℕ)
  entityMasks : List (ℕ → ℕ)
  queries : List Query
  notQueries : List Query
  localEntities : List (ℕ × ℕ)
  localEntityLookup : List (ℕ × ℕ)

/-- The process-wide state of the module: the mutable globals of
Entity.ts plus the worlds they act on. -/
structure EcsState where
  defaultSize : ℕ
  globalEntityCursor : ℕ
  globalSize : ℕ
  removed : List ℕ
  removedReuseThreshold : ℚ
  eidToWorld : List (ℕ × ℕ)
  worlds : ℕ → WorldState

/-- resetGlobals: globalSize := defaultSize, cursor := 0, threshold to its
default, and the removed pool emptied. -/
def resetGlobals (s : EcsState) : EcsState :=
  { s with globalSize := s.defaultSize, globalEntityCursor := 0,
           removedReuseThreshold := defaultRemovedReuseThreshold,
           removed := [] }

/-- setDefaultSize(newSize): set the default size, reset the globals, set
globalSize to the new size, and have every capacity-dependent
collaborator reallocate.  Modelled from the spec: resizeWorlds and
resizeComponents (src/World.js, src/Component.js are not part of the
given sources) reallocate per-world and per-component storage to the new
capacity preserving its contents, which on this abstraction (unbounded
functions and lists) is the identity; the serialization flag and the
console notice are unobserved here. -/
def setDefaultSize (newSize : ℕ) (s : EcsState) : EcsState :=
  let s1 := { s with defaultSize := newSize }
  let s2 := resetGlobals s1
  { s2 with globalSize := newSize }

/-- The per-world effect of addEntity: add the id to the sparse set, run
every not-query's check on the new entity and add it to the matching
ones, and give the id an empty component-tag set. -/
def addEntityWorldUpdate (w : WorldState) (eid : ℕ) : WorldState :=
  let w1 := { w with entitySparseSet := insert eid w.entitySparseSet }
  let nq := w1.notQueries.map (fun q => if queryCheckEntity q eid then queryAddEntity q eid else q)
  let w2 := { w1 with notQueries := nq }
  { w2 with entityComponents := jsMapSet w2.entityComponents eid [] }

/-- addEntity(world): grow all stores through setDefaultSize when the
cursor has reached the resize threshold; then hand out an id, recycled
from the head of the removed pool when its length exceeds
Math.round(defaultSize * removedReuseThreshold) and fresh from the cursor
otherwise; then register the id in the world's sparse set, the global
eidToWorld map, the matching not-queries, and the component-tag map.
The branch taking a recycled id from an empty pool mirrors the source's
non-null assertion on removed.shift(); it is unreachable while the reuse
threshold is nonnegative. -/
def addEntity (wid : ℕ) (s0 : EcsState) : EcsState × ℕ :=
  let s1 := if resizeThreshold s0.globalSize ≤ s0.globalEntityCursor then
      setDefaultSize (s0.globalSize + growAmount s0.globalSize) s0
    else s0
  let pick : ℕ × EcsState :=
    if (s1.removed.length : ℤ) > jsRound ((s1.defaultSize : ℚ) * s1.removedReuseThreshold) then
      match s1.removed with
      | e :: rest => (e, { s1 with removed := rest })
      | [] => (s1.globalEntityCursor, { s1 with globalEntityCursor := s1.globalEntityCursor + 1 })
    else (s1.globalEntityCursor, { s1 with globalEntityCursor := s1.globalEntityCursor + 1 })
  let s2 := pick.2
  let s3 := { s2 with
    worlds := Function.update s2.worlds wid (addEntityWorldUpdate (s2.worlds wid) pick.1),
    eidToWorld := jsMapSet s2.eidToWorld pick.1 wid }
  (s3, pick.1)

/-- The per-world effect of removeEntity on a live id: remove the id from
every registered query's result set, remove it from the sparse set and
the component-tag map, delete its deserialization mapping entries, and
zero its slot in every bitmask row. -/
def removeEntityWorldUpdate (w : WorldState) (eid : ℕ) : WorldState :=
  let w1 := { w with queries := w.queries.map (fun q => queryRemoveEntity q eid) }
  let w2 := { w1 with entitySparseSet := w1.entitySparseSet.erase eid,
                      entityComponents := jsMapDelete w1.entityComponents eid }
  let w3 := { w2 with
    localEntities := match jsMapGet w2.localEntityLookup eid with
      | some l => jsMapDelete w2.localEntities l
      | none => w2.localEntities,
    localEntityLookup := jsMapDelete w2.localEntityLookup eid }
  { w3 with entityMasks := w3.entityMasks.map (fun row j => if j = eid then 0 else row j) }

/-- removeEntity(world, eid): silently return when the id is not in the
world's sparse set; otherwise push the id onto the global removed pool
and purge it from the world. -/
def removeEntity (wid : ℕ) (eid : ℕ) (s : EcsState) : EcsState :=
  if eid ∈ (s.worlds wid).entitySparseSet then
    { s with removed := s.removed ++ [eid],
             worlds := Function.update s.worlds wid
               (removeEntityWorldUpdate (s.worlds wid) eid) }
  else s

/-- The error outcomes of getEntityComponents: the undefined-id check, the
liveness check, and the TypeError a JS call Array.from(undefined) raises
when the component-tag map has no entry for a live id. -/
inductive EntityError where
  | invalidEntity
  | entityNotFound
  | typeError
  deriving DecidableEq

/-- getEntityComponents(world, eid): error on an undefined id, error on an
id that is not live in the world's sparse set, otherwise the entity's
component-tag set as a sequence.  The undefined argument of the source is
modelled by an Option argument. -/
def getEntityComponents (w : WorldState) (eid : Option ℕ) : Except EntityError (List ℕ) :=
  match eid with
  | none => Except.error EntityError.invalidEntity
  | some e =>
    if e ∈ w.entitySparseSet then
      match jsMapGet w.entityComponents e with
      | some ts => Except.ok ts
      | none => Except.error EntityError.typeError
    else Except.error EntityError.entityNotFound

/-- entityExists(world, eid): the source's body evaluates the sparse-set
membership test but contains no return statement, so the call always
evaluates to undefined, modelled as none. -/
def entityExists (w : WorldState) (eid : ℕ) : Option Bool :=
  let _ := eid ∈ w.entitySparseSet
  none

/-- A world as it is before any entity is added to it.  Modelled from the
spec: createWorld lives outside the given sources; a fresh world has an
empty sparse set, no component tags, no bitmask rows registered yet, no
queries and empty deserialization maps. -/
def initialWorld : WorldState :=
  { entitySparseSet := ∅, entityComponents := [], entityMasks := [],
    queries := [], notQueries := [], localEntities := [], localEntityLookup := [] }

/-- The module state at load time: defaultSize = 100000, cursor 0, the
pool empty, the reuse threshold at its default, no entity owned by any
world. -/
def initialState : EcsState :=
  { defaultSize := 100000, globalEntityCursor := 0, globalSize := 100000,
    removed := [], removedReuseThreshold := defaultRemovedReuseThreshold,
    eidToWorld := [], worlds := fun _ => initialWorld }

/-- The state after n addEntity calls on world wid starting from s. -/
def addN (wid : ℕ) : ℕ → EcsState → EcsState
  | 0, s => s
  | n + 1, s => (addEntity wid (addN wid n s)).1

/-- The state after n addEntity calls on world 0 from the initial state. -/
def trace (n : ℕ) : EcsState := addN 0 n initialState

/-- The ids returned by the first n addEntity calls on world 0 from the
initial state. -/
def traceIds (n : ℕ) : List ℕ :=
  (List.range n).map (fun k => (addEntity 0 (trace k)).2)

/-- The state after removing, in order, the ids of l from world wid. -/
def removeList (wid : ℕ) (l : List ℕ) (s : EcsState) : EcsState :=
  l.foldl (fun t e => removeEntity wid e t) s

/-- The state after n addEntity calls from the initial state, the k-th
call addressed to world ws k. -/
def traceSeq (ws : ℕ → ℕ) : ℕ → EcsState
  | 0 => initialState
  | n + 1 => (addEntity (ws n) (traceSeq ws n)).1

/-- The ids 2 to 1501, to be removed from world 0 after 80000
allocations, exercising recycling against the growth path. -/
def churnRemovals : List ℕ := (List.range 1500).map (fun k => k + 2)

/-- The state after 80000 addEntity calls on world 0 followed by
removeEntity of the ids 2 to 1501: 1500 ids sit in the recycle pool,
above the reuse threshold round(100000 * 0.01) = 1000. -/
def churnState : EcsState := removeList 0 churnRemovals (trace 80000)

/-- A sample world holding entity 5 with one component tag, one bitmask
row, and a deserialization mapping 9 <-> 5. -/
def sampleWorld : WorldState :=
  { entitySparseSet := {5}, entityComponents := [(5, [3])],
    entityMasks := [fun _ => 7], queries := [], notQueries := [],
    localEntities := [(9, 5)], localEntityLookup := [(5, 9)] }

/-- A sample process state owning entity 5 in world 0. -/
def sampleState : EcsState :=
  { defaultSize := 100000, globalEntityCursor := 6, globalSize := 100000,
    removed := [], removedReuseThreshold := defaultRemovedReuseThreshold,
    eidToWorld := [(5, 0)], worlds := fun _ => sampleWorld }

lemma jsMapSet_cons_ne {α : Type} (a : ℕ × α) (t : List (ℕ × α)) (k : ℕ) (v : α)
    (ha : (a.1 == k) = false) :
    jsMapSet (a :: t) k v = a :: jsMapSet t k v := by
  unfold jsMapSet
  simp only [List.any_cons, ha, Bool.false_or]
  by_cases ht : t.any (fun p => p.1 == k)
  · simp only [if_pos ht, List.map_cons, ha, Bool.false_eq_true, if_false]
  · simp [ht]

lemma jsMapGet_cons_ne {α : Type} (a : ℕ × α) (t : List (ℕ × α)) (k : ℕ)
    (ha : (a.1 == k) = false) :
    jsMapGet (a :: t) k = jsMapGet t k := by
  unfold jsMapGet
  rw [List.find?_cons_of_neg _ (by simp [ha])]

lemma jsMapGet_set_self {α : Type} (m : List (ℕ × α)) (k : ℕ) (v : α) :
    jsMapGet (jsMapSet m k v) k = some v := by
  induction m with
  | nil => simp [jsMapGet, jsMapSet]
  | cons a t ih =>
    by_cases h : (a.1 == k) = true
    · have hm : ((a :: t).any (fun p => p.1 == k)) = true := by simp [List.any_cons, h]
      unfold jsMapSet
      rw [if_pos hm]
      simp only [List.map_cons, h, if_true]
      unfold jsMapGet
      rw [List.find?_cons_of_pos _ (by simp)]
      rfl
    · rw [jsMapSet_cons_ne a t k v (by simpa using h),
          jsMapGet_cons_ne a _ k (by simpa using h)]
      exact ih

lemma jsMapGet_delete_self {α : Type} (m : List (ℕ × α)) (k : ℕ) :
    jsMapGet (jsMapDelete m k) k = none := by
  induction m with
  | nil => rfl
  | cons a t ih =>
    by_cases h : (a.1 == k) = true
    · have hak : a.1 = k := by simpa using h
      unfold jsMapDelete
      rw [List.filter_cons_of_neg (by simp [hak])]
      exact ih
    · have hak : ¬ a.1 = k := by simpa using h
      unfold jsMapDelete
      rw [List.filter_cons_of_pos (by simp [hak])]
      rw [jsMapGet_cons_ne a _ k (by simpa using h)]
      exact ih

lemma jsMapSet_of_not_mem {α : Type} (m : List (ℕ × α)) (k : ℕ) (v : α)
    (h : (m.any (fun p => p.1 == k)) = false) :
    jsMapSet m k v = m ++ [(k, v)] := by
  unfold jsMapSet
  rw [h]
  rfl

lemma jsRound_nonneg (q : ℚ) (h : 0 ≤ q) : 0 ≤ jsRound q := by
  unfold jsRound
  exact Int.floor_nonneg.mpr (by linarith)

lemma addEntity_fresh (s : EcsState) (wid : ℕ)
    (hg : s.globalEntityCursor < resizeThreshold s.globalSize)
    (hr : ¬ ((s.removed.length : ℤ) > jsRound ((s.defaultSize : ℚ) * s.removedReuseThreshold))) :
    addEntity wid s =
      ({ s with globalEntityCursor := s.globalEntityCursor + 1,
                eidToWorld := jsMapSet s.eidToWorld s.globalEntityCursor wid,
                worlds := Function.update s.worlds wid
                  (addEntityWorldUpdate (s.worlds wid) s.globalEntityCursor) },
       s.globalEntityCursor) := by
  simp only [addEntity]
  rw [if_neg (not_le.mpr hg), if_neg hr]

lemma addEntity_grow (s : EcsState) (wid : ℕ)
    (hg : resizeThreshold s.globalSize ≤ s.globalEntityCursor) :
    addEntity wid s =
      ({ s with defaultSize := s.globalSize + growAmount s.globalSize,
                globalSize := s.globalSize + growAmount s.globalSize,
                globalEntityCursor := 1,
                removed := [],
                removedReuseThreshold := defaultRemovedReuseThreshold,
                eidToWorld := jsMapSet s.eidToWorld 0 wid,
                worlds := Function.update s.worlds wid
                  (addEntityWorldUpdate (s.worlds wid) 0) },
       0) := by
  have h0 : (0 : ℤ) ≤ jsRound
      (((s.globalSize + growAmount s.globalSize : ℕ) : ℚ) * defaultRemovedReuseThreshold) :=
    jsRound_nonneg _ (mul_nonneg (Nat.cast_nonneg _) (by norm_num [defaultRemovedReuseThreshold]))
  simp only [addEntity, setDefaultSize, resetGlobals]
  rw [if_pos hg]
  rw [if_neg (by simpa using not_lt.mpr h0)]

lemma removeEntity_live (s : EcsState) (wid eid : ℕ)
    (h : eid ∈ (s.worlds wid).entitySparseSet) :
    removeEntity wid eid s =
      { s with removed := s.removed ++ [eid],
               worlds := Function.update s.worlds wid
                 (removeEntityWorldUpdate (s.worlds wid) eid) } := by
  unfold removeEntity
  rw [if_pos h]

lemma removeEntityWorldUpdate_sparse (w : WorldState) (eid : ℕ) :
    (removeEntityWorldUpdate w eid).entitySparseSet = w.entitySparseSet.erase eid := rfl

lemma addEntityWorldUpdate_sparse (w : WorldState) (eid : ℕ) :
    (addEntityWorldUpdate w eid).entitySparseSet = insert eid w.entitySparseSet := rfl

lemma guard_false_of_empty (s : EcsState) (hr : s.removed = [])
    (ht : 0 ≤ s.removedReuseThreshold) :
    ¬ ((s.removed.length : ℤ) > jsRound ((s.defaultSize : ℚ) * s.removedReuseThreshold)) := by
  rw [hr]
  simpa using not_lt.mpr (jsRound_nonneg _ (mul_nonneg (Nat.cast_nonneg _) ht))

lemma trace_spec : ∀ n : ℕ, n ≤ 80000 →
    (trace n).globalEntityCursor = n ∧
    (trace n).globalSize = 100000 ∧
    (trace n).defaultSize = 100000 ∧
    (trace n).removed = [] ∧
    (trace n).removedReuseThreshold = defaultRemovedReuseThreshold ∧
    ((trace n).worlds 0).entitySparseSet = Finset.range n ∧
    ((trace n).worlds 1).entitySparseSet = ∅ ∧
    (trace n).eidToWorld = (List.range n).map (fun e => (e, 0)) := by
  intro n
  induction n with
  | zero =>
    intro _
    exact ⟨rfl, rfl, rfl, rfl, rfl, by simp [trace, addN, initialState, initialWorld],
      rfl, rfl⟩
  | succ k ih =>
    intro hk1
    obtain ⟨hc, hs, hd, hr, ht, hw0, hw1, he⟩ := ih (by omega)
    have hg : (trace k).globalEntityCursor < resizeThreshold (trace k).globalSize := by
      rw [hc, hs]
      have : resizeThreshold 100000 = 80000 := by norm_num [resizeThreshold]
      omega
    have hguard := guard_false_of_empty (trace k) hr
      (by rw [ht]; norm_num [defaultRemovedReuseThreshold])
    have hstep : trace (k + 1) = (addEntity 0 (trace k)).1 := rfl
    rw [hstep, addEntity_fresh (trace k) 0 hg hguard]
    refine ⟨by simp [hc], hs, hd, hr, ht, ?_, ?_, ?_⟩
    · simp only [Function.update_same, addEntityWorldUpdate_sparse, hc, hw0]
      exact (Finset.range_succ).symm
    · simp only [Function.update_noteq one_ne_zero]
      exact hw1
    · simp only [hc, he]
      rw [jsMapSet_of_not_mem _ _ _ ?_]
      · rw [List.range_succ, List.map_append]
        rfl
      · rw [List.any_eq_false]
        intro x hx
        obtain ⟨e, he', rfl⟩ := List.mem_map.mp hx
        have := List.mem_range.mp he'
        simp only [beq_iff_eq]
        omega

lemma traceId_of_lt (k : ℕ) (hk : k < 80000) : (addEntity 0 (trace k)).2 = k := by
  obtain ⟨hc, hs, hd, hr, ht, _, _, _⟩ := trace_spec k (le_of_lt hk)
  have hg : (trace k).globalEntityCursor < resizeThreshold (trace k).globalSize := by
    rw [hc, hs]
    have : resizeThreshold 100000 = 80000 := by norm_num [resizeThreshold]
    omega
  have hguard := guard_false_of_empty (trace k) hr
    (by rw [ht]; norm_num [defaultRemovedReuseThreshold])
  rw [addEntity_fresh (trace k) 0 hg hguard]
  exact hc

lemma trace_80000_grow :
    addEntity 1 (trace 80000) =
      ({ trace 80000 with
          defaultSize := 150000, globalSize := 150000, globalEntityCursor := 1,
          removed := [], removedReuseThreshold := defaultRemovedReuseThreshold,
          eidToWorld := jsMapSet (trace 80000).eidToWorld 0 1,
          worlds := Function.update (trace 80000).worlds 1
            (addEntityWorldUpdate ((trace 80000).worlds 1) 0) }, 0) := by
  obtain ⟨hc, hs, _, _, _, _, _, _⟩ := trace_spec 80000 le_rfl
  have hg : resizeThreshold (trace 80000).globalSize ≤ (trace 80000).globalEntityCursor := by
    rw [hc, hs]
    norm_num [resizeThreshold]
  have h := addEntity_grow (trace 80000) 1 hg
  rw [h, hs]
  norm_num [growAmount]

lemma traceId_80000 : (addEntity 0 (trace 80000)).2 = 0 := by
  obtain ⟨hc, hs, _, _, _, _, _, _⟩ := trace_spec 80000 le_rfl
  have hg : resizeThreshold (trace 80000).globalSize ≤ (trace 80000).globalEntityCursor := by
    rw [hc, hs]
    norm_num [resizeThreshold]
  rw [addEntity_grow (trace 80000) 0 hg]

lemma traceIds_getElem (i : ℕ) (h : i < 80001) :
    (traceIds 80001)[i]? = some ((addEntity 0 (trace i)).2) := by
  unfold traceIds
  rw [List.getElem?_map, List.getElem?_range h]
  rfl

lemma addEntity_size (wid : ℕ) (s : EcsState) :
    (addEntity wid s).1.globalSize =
      if resizeThreshold s.globalSize ≤ s.globalEntityCursor
      then s.globalSize + growAmount s.globalSize else s.globalSize := by
  by_cases hg : resizeThreshold s.globalSize ≤ s.globalEntityCursor
  · simp only [addEntity, setDefaultSize, resetGlobals, if_pos hg]
    split
    · rfl
    · rfl
  · simp only [addEntity, if_neg hg, if_neg hg]
    split
    · split <;> rfl
    · rfl

/-- C1: for every sequence of addEntity calls with no interleaved
removeEntity calls, the returned ids are pairwise distinct and
monotonically increasing until the first reuse event.  The code violates
this: starting from the initial state, 80001 consecutive addEntity calls
on one world return the ids 0, 1, ..., 79999 and then 0 again, because
the capacity growth inside the 80001st call goes through setDefaultSize,
whose resetGlobals resets the global cursor to 0; no removeEntity call
and no pool reuse happened, yet the ids are neither pairwise distinct
nor monotonically increasing. -/
theorem c1_growth_reissues_id_zero :
    (traceIds 80001)[0]? = some 0 ∧ (traceIds 80001)[80000]? = some 0 ∧
    ¬ (traceIds 80001).Pairwise (fun a b => a ≠ b) ∧
    ¬ (traceIds 80001).Pairwise (fun a b => a < b) := by
  have hlen : (traceIds 80001).length = 80001 := by simp [traceIds]
  have hi0 : (0 : ℕ) < (traceIds 80001).length := by rw [hlen]; norm_num
  have hi8 : (80000 : ℕ) < (traceIds 80001).length := by rw [hlen]; norm_num
  have q0 : (traceIds 80001)[0]? = some 0 := by
    rw [traceIds_getElem 0 (by norm_num), traceId_of_lt 0 (by norm_num)]
  have q8 : (traceIds 80001)[80000]? = some 0 := by
    rw [traceIds_getElem 80000 (by norm_num), traceId_80000]
  have a0 := List.getElem?_eq_getElem hi0
  have a8 := List.getElem?_eq_getElem hi8
  rw [q0] at a0
  rw [q8] at a8
  have heq := (Option.some.inj a0).symm.trans (Option.some.inj a8)
  refine ⟨q0, q8, ?_, ?_⟩
  · intro hp
    exact List.pairwise_iff_getElem.mp hp 0 80000 hi0 hi8 (by norm_num) heq
  · intro hp
    have hlt := List.pairwise_iff_getElem.mp hp 0 80000 hi0 hi8 (by norm_num)
    rw [← heq] at hlt
    exact lt_irrefl _ hlt

/-- C2: in every reachable state an entity id is live in at most one
world, and eidToWorld maps a live id to its owning world.  The code
violates this: after 80000 addEntity calls on world 0, one addEntity
call on world 1 triggers capacity growth, whose resetGlobals resets the
cursor, and the call hands id 0 to world 1 while id 0 is still live in
world 0's sparse set; eidToWorld now names world 1 although the id is
also live in world 0. -/
theorem c2_id_live_in_two_worlds :
    0 ∈ ((addEntity 1 (trace 80000)).1.worlds 0).entitySparseSet ∧
    0 ∈ ((addEntity 1 (trace 80000)).1.worlds 1).entitySparseSet ∧
    jsMapGet (addEntity 1 (trace 80000)).1.eidToWorld 0 = some 1 := by
  obtain ⟨hc, hs, hd, hr, ht, hw0, hw1, he⟩ := trace_spec 80000 le_rfl
  rw [trace_80000_grow]
  refine ⟨?_, ?_, ?_⟩
  · simp only [Function.update_noteq zero_ne_one]
    rw [hw0]
    exact Finset.mem_range.mpr (by norm_num)
  · simp only [Function.update_same, addEntityWorldUpdate_sparse]
    exact Finset.mem_insert_self 0 _
  · exact jsMapGet_set_self _ 0 1

/-- C4: addEntity triggers capacity growth exactly when the cursor is at
least globalSize minus floor(globalSize/5), and on trigger it grows the
capacity by ceil(globalSize/2/4)*4, here (globalSize+7)/8*4; starting
from the default capacity 100000 the 80001st addEntity call resizes the
capacity to 150000, which is at least 100000 + ceil(50000/4)*4. -/
theorem c4_growth_trigger_and_amount :
    (∀ (s : EcsState) (wid : ℕ),
      (addEntity wid s).1.globalSize =
        if s.globalSize - s.globalSize / 5 ≤ s.globalEntityCursor
        then s.globalSize + (s.globalSize + 7) / 8 * 4
        else s.globalSize) ∧
    (trace 80000).globalEntityCursor = 80000 ∧
    (trace 80000).globalSize = 100000 ∧
    (addEntity 0 (trace 80000)).1.globalSize = 150000 ∧
    100000 + (100000 / 2 + 3) / 4 * 4 ≤ 150000 := by
  obtain ⟨hc, hs, _, _, _, _, _, _⟩ := trace_spec 80000 le_rfl
  refine ⟨fun s wid => addEntity_size wid s, hc, hs, ?_, by norm_num⟩
  have hg : resizeThreshold (trace 80000).globalSize ≤ (trace 80000).globalEntityCursor := by
    rw [hc, hs]
    norm_num [resizeThreshold]
  rw [addEntity_size 0 (trace 80000), if_pos hg, hs]
  norm_num [growAmount]

lemma removeList_spec (wid : ℕ) : ∀ (l : List ℕ) (s : EcsState), l.Nodup →
    (∀ e ∈ l, e ∈ (s.worlds wid).entitySparseSet) →
    (removeList wid l s).removed = s.removed ++ l ∧
    (removeList wid l s).globalEntityCursor = s.globalEntityCursor ∧
    (removeList wid l s).globalSize = s.globalSize ∧
    (removeList wid l s).defaultSize = s.defaultSize ∧
    (removeList wid l s).removedReuseThreshold = s.removedReuseThreshold ∧
    ((removeList wid l s).worlds wid).entitySparseSet =
      (s.worlds wid).entitySparseSet \ l.toFinset := by
  intro l
  induction l with
  | nil =>
    intro s _ _
    simp [removeList]
  | cons e rest ih =>
    intro s hnd hlive
    have hel : e ∈ (s.worlds wid).entitySparseSet := hlive e (List.mem_cons_self e rest)
    have hstep : removeList wid (e :: rest) s = removeList wid rest (removeEntity wid e s) := rfl
    have hrem := removeEntity_live s wid e hel
    have hnd' : rest.Nodup := (List.nodup_cons.mp hnd).2
    have hne : e ∉ rest := (List.nodup_cons.mp hnd).1
    have hlive' : ∀ x ∈ rest, x ∈ ((removeEntity wid e s).worlds wid).entitySparseSet := by
      intro x hx
      rw [hrem]
      simp only [Function.update_same, removeEntityWorldUpdate_sparse]
      exact Finset.mem_erase.mpr ⟨fun hxe => hne (hxe ▸ hx), hlive x (List.mem_cons_of_mem e hx)⟩
    obtain ⟨h1, h2, h3, h4, h5, h6⟩ := ih (removeEntity wid e s) hnd' hlive'
    rw [hstep]
    refine ⟨?_, ?_, ?_, ?_, ?_, ?_⟩
    · rw [h1, hrem]
      simp
    · rw [h2, hrem]
    · rw [h3, hrem]
    · rw [h4, hrem]
    · rw [h5, hrem]
    · rw [h6, hrem]
      simp only [Function.update_same, removeEntityWorldUpdate_sparse]
      ext x
      simp only [Finset.mem_sdiff, Finset.mem_erase, List.toFinset_cons, Finset.mem_insert,
        List.mem_toFinset]
      tauto

lemma churnState_spec :
    churnState.removed = churnRemovals ∧
    churnState.globalEntityCursor = 80000 ∧
    churnState.globalSize = 100000 ∧
    churnState.defaultSize = 100000 ∧
    churnState.removedReuseThreshold = defaultRemovedReuseThreshold := by
  unfold churnState
  obtain ⟨hc, hs, hd, hr, ht, hw0, _, _⟩ := trace_spec 80000 le_rfl
  have hnd : churnRemovals.Nodup := by
    refine List.Nodup.map ?_ (List.nodup_range 1500)
    intro a b hab
    simp only at hab
    omega
  have hlive : ∀ e ∈ churnRemovals, e ∈ ((trace 80000).worlds 0).entitySparseSet := by
    intro e hedge
    obtain ⟨k, hk, rfl⟩ := List.mem_map.mp hedge
    rw [hw0]
    have := List.mem_range.mp hk
    exact Finset.mem_range.mpr (by omega)
  obtain ⟨h1, h2, h3, h4, h5, _⟩ := removeList_spec 0 churnRemovals (trace 80000) hnd hlive
  refine ⟨?_, ?_, ?_, ?_, ?_⟩
  · rw [h1, hr]
    exact List.nil_append churnRemovals
  · rw [h2, hc]
  · rw [h3, hs]
  · rw [h4, hd]
  · rw [h5, ht]

/-- C3: addEntity returns a recycled id exactly when the recycle pool's
length exceeds round(defaultSize * removedReuseThreshold), the oldest
pooled id first (FIFO), and otherwise the fresh cursor value.  The code
violates this: after 80000 allocations on world 0 and removal of ids
2..1501, the pool holds 1500 ids, above the threshold 1000, and its
oldest entry is 2; yet the next addEntity call fires the growth check,
whose setDefaultSize/resetGlobals empties the pool and resets the cursor,
and the call returns 0 - neither the oldest pooled id 2 nor the prior
cursor value 80000. -/
theorem c3_growth_discards_pool :
    churnState.removed.length = 1500 ∧
    jsRound ((churnState.defaultSize : ℚ) * churnState.removedReuseThreshold) = 1000 ∧
    churnState.removed[0]? = some 2 ∧
    churnState.globalEntityCursor = 80000 ∧
    (addEntity 0 churnState).2 = 0 := by
  obtain ⟨h1, h2, h3, h4, h5⟩ := churnState_spec
  refine ⟨?_, ?_, ?_, h2, ?_⟩
  · rw [h1]
    simp [churnRemovals]
  · rw [h4, h5]
    norm_num [jsRound, defaultRemovedReuseThreshold]
  · rw [h1]
    unfold churnRemovals
    rw [List.getElem?_map, List.getElem?_range (by norm_num)]
    rfl
  · have hg : resizeThreshold churnState.globalSize ≤ churnState.globalEntityCursor := by
      rw [h2, h3]
      norm_num [resizeThreshold]
    rw [addEntity_grow churnState 0 hg]

lemma addEntity_size_mono (wid : ℕ) (s : EcsState) :
    s.globalSize ≤ (addEntity wid s).1.globalSize := by
  rw [addEntity_size]
  split
  · omega
  · exact le_rfl

lemma addEntity_recycle (s : EcsState) (wid : ℕ)
    (hg : s.globalEntityCursor < resizeThreshold s.globalSize)
    (hr : (s.removed.length : ℤ) > jsRound ((s.defaultSize : ℚ) * s.removedReuseThreshold))
    (e : ℕ) (rest : List ℕ) (hrem : s.removed = e :: rest) :
    addEntity wid s =
      ({ s with removed := rest,
                eidToWorld := jsMapSet s.eidToWorld e wid,
                worlds := Function.update s.worlds wid
                  (addEntityWorldUpdate (s.worlds wid) e) }, e) := by
  simp only [addEntity]
  rw [if_neg (not_le.mpr hg), hrem]
  rw [if_pos (by rw [hrem] at hr; exact hr)]

lemma removeEntity_not_live (s : EcsState) (wid eid : ℕ)
    (h : eid ∉ (s.worlds wid).entitySparseSet) :
    removeEntity wid eid s = s := by
  unfold removeEntity
  rw [if_neg h]

lemma addEntity_cursor_inv (wid : ℕ) (s : EcsState)
    (h1 : s.globalEntityCursor ≤ s.globalSize) (h2 : 1 ≤ s.globalSize) :
    (addEntity wid s).1.globalEntityCursor ≤ (addEntity wid s).1.globalSize ∧
    1 ≤ (addEntity wid s).1.globalSize := by
  by_cases hg : resizeThreshold s.globalSize ≤ s.globalEntityCursor
  · rw [addEntity_grow s wid hg]
    constructor
    · show 1 ≤ s.globalSize + growAmount s.globalSize
      omega
    · show 1 ≤ s.globalSize + growAmount s.globalSize
      omega
  · have hlt : s.globalEntityCursor < resizeThreshold s.globalSize := not_le.mp hg
    have hts : resizeThreshold s.globalSize ≤ s.globalSize := by
      unfold resizeThreshold
      omega
    by_cases hr : (s.removed.length : ℤ) > jsRound ((s.defaultSize : ℚ) * s.removedReuseThreshold)
    · rcases hrem : s.removed with _ | ⟨e, rest⟩
      · -- empty pool with the guard true: the source would shift undefined;
        -- the model hands out the cursor, which stays within the capacity
        simp only [addEntity]
        rw [if_neg (not_le.mpr hlt), hrem]
        rw [if_pos (by rw [hrem] at hr; exact hr)]
        refine ⟨?_, ?_⟩
        · show s.globalEntityCursor + 1 ≤ s.globalSize
          omega
        · exact h2
      · rw [addEntity_recycle s wid hlt hr e rest hrem]
        exact ⟨h1, h2⟩
    · rw [addEntity_fresh s wid hlt hr]
      refine ⟨?_, ?_⟩
      · show s.globalEntityCursor + 1 ≤ s.globalSize
        omega
      · exact h2

lemma traceSeq_inv (ws : ℕ → ℕ) : ∀ n : ℕ,
    (traceSeq ws n).globalEntityCursor ≤ (traceSeq ws n).globalSize ∧
    1 ≤ (traceSeq ws n).globalSize := by
  intro n
  induction n with
  | zero => exact ⟨by norm_num [traceSeq, initialState], by norm_num [traceSeq, initialState]⟩
  | succ k ih => exact addEntity_cursor_inv (ws k) (traceSeq ws k) ih.1 ih.2

/-- C5: across every sequence of addEntity calls the global capacity
never decreases, and after every addEntity call returns the global
cursor does not exceed the global capacity.  The first clause holds for
a single step from any state at all; the cursor bound holds along every
addEntity sequence from the initial state, whichever world each call
addresses. -/
theorem c5_capacity_monotone :
    (∀ (s : EcsState) (wid : ℕ), s.globalSize ≤ (addEntity wid s).1.globalSize) ∧
    (∀ (ws : ℕ → ℕ) (n : ℕ), (traceSeq ws n).globalSize ≤ (traceSeq ws (n + 1)).globalSize) ∧
    (∀ (ws : ℕ → ℕ) (n : ℕ),
      (traceSeq ws n).globalEntityCursor ≤ (traceSeq ws n).globalSize) := by
  refine ⟨fun s wid => addEntity_size_mono wid s, ?_, fun ws n => (traceSeq_inv ws n).1⟩
  intro ws n
  exact addEntity_size_mono (ws n) (traceSeq ws n)

/-- C6: for every world and every id live in that world, removeEntity
pushes the id onto the tail of the global recycle pool, removes it from
the world's sparse set and component-tag map, deletes its local-id and
global-id deserialization mapping entries, and zeroes the id's slot in
every bitmask row of that world. -/
theorem c6_remove_purges_entity (s : EcsState) (wid eid : ℕ)
    (h : eid ∈ (s.worlds wid).entitySparseSet) :
    (removeEntity wid eid s).removed = s.removed ++ [eid] ∧
    eid ∉ ((removeEntity wid eid s).worlds wid).entitySparseSet ∧
    jsMapGet ((removeEntity wid eid s).worlds wid).entityComponents eid = none ∧
    jsMapGet ((removeEntity wid eid s).worlds wid).localEntityLookup eid = none ∧
    (∀ l, jsMapGet (s.worlds wid).localEntityLookup eid = some l →
      jsMapGet ((removeEntity wid eid s).worlds wid).localEntities l = none) ∧
    (∀ row ∈ ((removeEntity wid eid s).worlds wid).entityMasks, row eid = 0) := by
  rw [removeEntity_live s wid eid h]
  simp only [Function.update_same]
  refine ⟨trivial, ?_, ?_, ?_, ?_, ?_⟩
  · rw [removeEntityWorldUpdate_sparse]
    exact Finset.not_mem_erase eid _
  · have hcomp : (removeEntityWorldUpdate (s.worlds wid) eid).entityComponents =
        jsMapDelete (s.worlds wid).entityComponents eid := rfl
    rw [hcomp]
    exact jsMapGet_delete_self _ _
  · have hlook : (removeEntityWorldUpdate (s.worlds wid) eid).localEntityLookup =
        jsMapDelete (s.worlds wid).localEntityLookup eid := rfl
    rw [hlook]
    exact jsMapGet_delete_self _ _
  · intro l hl
    unfold removeEntityWorldUpdate
    simp only [hl]
    exact jsMapGet_delete_self _ _
  · intro row hrow
    have hm : (removeEntityWorldUpdate (s.worlds wid) eid).entityMasks =
        (s.worlds wid).entityMasks.map (fun r j => if j = eid then 0 else r j) := rfl
    rw [hm] at hrow
    obtain ⟨r, _, rfl⟩ := List.mem_map.mp hrow
    simp

theorem c6_remove_purges_entity_witness :
    5 ∈ (sampleState.worlds 0).entitySparseSet ∧
    ((removeEntity 0 5 sampleState).removed = sampleState.removed ++ [5] ∧
     5 ∉ ((removeEntity 0 5 sampleState).worlds 0).entitySparseSet ∧
     jsMapGet ((removeEntity 0 5 sampleState).worlds 0).entityComponents 5 = none ∧
     jsMapGet ((removeEntity 0 5 sampleState).worlds 0).localEntityLookup 5 = none ∧
     (∀ l, jsMapGet (sampleState.worlds 0).localEntityLookup 5 = some l →
       jsMapGet ((removeEntity 0 5 sampleState).worlds 0).localEntities l = none) ∧
     (∀ row ∈ ((removeEntity 0 5 sampleState).worlds 0).entityMasks, row 5 = 0)) :=
  ⟨by decide, c6_remove_purges_entity sampleState 0 5 (by decide)⟩

/-- C7: removeEntity on an id that is not live in the world is a silent
no-op leaving the whole state unchanged, and removal is idempotent:
removing the same id from the same world twice in a row yields the same
state as removing it once. -/
theorem c7_remove_idempotent (s : EcsState) (wid eid : ℕ) :
    (eid ∉ (s.worlds wid).entitySparseSet → removeEntity wid eid s = s) ∧
    removeEntity wid eid (removeEntity wid eid s) = removeEntity wid eid s := by
  refine ⟨fun h => removeEntity_not_live s wid eid h, ?_⟩
  by_cases h : eid ∈ (s.worlds wid).entitySparseSet
  · have h2 : eid ∉ ((removeEntity wid eid s).worlds wid).entitySparseSet := by
      rw [removeEntity_live s wid eid h]
      simp only [Function.update_same, removeEntityWorldUpdate_sparse]
      exact Finset.not_mem_erase eid _
    exact removeEntity_not_live _ wid eid h2
  · rw [removeEntity_not_live s wid eid h]
    exact removeEntity_not_live s wid eid h

theorem c7_remove_idempotent_witness :
    3 ∉ (initialState.worlds 0).entitySparseSet ∧
    removeEntity 0 3 initialState = initialState ∧
    removeEntity 0 3 (removeEntity 0 3 initialState) = removeEntity 0 3 initialState :=
  ⟨by decide, (c7_remove_idempotent initialState 0 3).1 (by decide),
    (c7_remove_idempotent initialState 0 3).2⟩

/-- C8: getEntityComponents raises InvalidEntity exactly when the id
argument is undefined, raises EntityNotFound exactly when the id is
defined but not live in the world's sparse set, and otherwise (the
component-tag map holding an entry for the live id, as it does in every
state the module itself builds) returns the entity's component-tag set
as a sequence. -/
theorem c8_get_components_errors (w : WorldState) (e : Option ℕ) :
    (getEntityComponents w e = Except.error EntityError.invalidEntity ↔ e = none) ∧
    (getEntityComponents w e = Except.error EntityError.entityNotFound ↔
      ∃ i, e = some i ∧ i ∉ w.entitySparseSet) ∧
    (∀ i ts, e = some i → i ∈ w.entitySparseSet →
      jsMapGet w.entityComponents i = some ts →
      getEntityComponents w e = Except.ok ts) := by
  refine ⟨?_, ?_, ?_⟩
  · cases e with
    | none => simp [getEntityComponents]
    | some i =>
      simp only [getEntityComponents]
      by_cases hi : i ∈ w.entitySparseSet
      · rw [if_pos hi]
        cases hg : jsMapGet w.entityComponents i <;> simp
      · rw [if_neg hi]
        simp
  · cases e with
    | none => simp [getEntityComponents]
    | some i =>
      simp only [getEntityComponents]
      by_cases hi : i ∈ w.entitySparseSet
      · rw [if_pos hi]
        cases hg : jsMapGet w.entityComponents i <;> simp [hi]
      · rw [if_neg hi]
        simp [hi]
  · intro i ts he hi hg
    subst he
    simp only [getEntityComponents]
    rw [if_pos hi, hg]

theorem c8_get_components_errors_witness :
    ((some 5 : Option ℕ) = some 5) ∧
    5 ∈ sampleWorld.entitySparseSet ∧
    jsMapGet sampleWorld.entityComponents 5 = some [3] ∧
    getEntityComponents sampleWorld (some 5) = Except.ok [3] :=
  ⟨rfl, by decide, by decide,
    (c8_get_components_errors sampleWorld (some 5)).2.2 5 [3] rfl (by decide) (by decide)⟩

/-- C9: entityExists is specified to return the boolean sparse-set
membership of the id; the source's body computes the membership test but
has no return statement, so for every world and id the call evaluates to
undefined (none) and never returns a boolean. -/
theorem c9_exists_returns_undefined :
    ∀ (w : WorldState) (eid : ℕ), entityExists w eid = none :=
  fun _ _ => rfl

/-- C10: for every world and every id live in that world (and mapped to
it by eidToWorld), removeEntity leaves the global eidToWorld map
entirely unchanged, so the removed id's entry still maps it to the world
it was removed from and no other entry is touched. -/
theorem c10_remove_keeps_eid_to_world (s : EcsState) (wid eid : ℕ)
    (hlive : eid ∈ (s.worlds wid).entitySparseSet)
    (hmap : jsMapGet s.eidToWorld eid = some wid) :
    (removeEntity wid eid s).eidToWorld = s.eidToWorld ∧
    jsMapGet (removeEntity wid eid s).eidToWorld eid = some wid := by
  have hframe : (removeEntity wid eid s).eidToWorld = s.eidToWorld := by
    rw [removeEntity_live s wid eid hlive]
  exact ⟨hframe, by rw [hframe]; exact hmap⟩

theorem c10_remove_keeps_eid_to_world_witness :
    5 ∈ (sampleState.worlds 0).entitySparseSet ∧
    jsMapGet sampleState.eidToWorld 5 = some 0 ∧
    ((removeEntity 0 5 sampleState).eidToWorld = sampleState.eidToWorld ∧
     jsMapGet (removeEntity 0 5 sampleState).eidToWorld 5 = some 0) :=
  ⟨by decide, by decide,
    c10_remove_keeps_eid_to_world sampleState 0 5 (by decide) (by decide)⟩

end BitEcs
